import Mathlib

/-!
Shallow embedding of the AutoColumnSize plugin
(`src/plugins/autoColumnSize/autoColumnSize.js`) of the handsontable
repository, together with theorems settling the frozen claims about it.

External collaborators (host grid data access, host configuration query,
sample selector, ghost-table measurement surface, viewport query) are
parameters of the model, following §6 of the design document: the
ghost-table width measured for a column over a row range is an abstract
function of the host, deterministic while the host data and configuration
stay unchanged.  JavaScript `undefined` is `Option.none`; the sparse
`this.widths` array (which can also receive entries at negative indices)
is a mapping from integer column index to an optional width.
-/

namespace AutoColumnSize

/-- Inclusive integer range `{from: …, to: …}` as passed around by the plugin. -/
structure CRange where
  rangeFrom : Int
  rangeTo : Int
deriving DecidableEq

/-- Modelled from the spec: `rangeEach` lives in `helpers.js`, which is not
under `src/`.  Per the design document's data model, a `Range` is inclusive
on both ends and a range with `from > to` is empty; `rangeEach(from, to, f)`
therefore visits every integer of `[from, to]` in ascending order. -/
def rangeList (rangeFrom rangeTo : Int) : List Int :=
  (List.range (rangeTo + 1 - rangeFrom).toNat).map (fun i => rangeFrom + i)

/-- The width cache `this.widths`: a sparse mapping from integer column index
to a measured width; `none` stands for JavaScript `undefined` (absent). -/
abbrev WidthCache := Int → Option Int

/-- JavaScript truthiness of an optional width value, as used by
`!this.hot._getColWidthFromSettings(col)`: `undefined` and `0` are falsy. -/
def jsTruthyW : Option Int → Bool
  | none => false
  | some w => w != 0

/-- JavaScript `a || b` for an optional number `a` (used in the
`(defaultWidth || 0)` tie-break of `getColumnWidth`). -/
def jsOr : Option Int → Int → Int
  | none, b => b
  | some a, b => if a = 0 then b else a

/-- The host (`this.hot`) together with the external collaborators reached
through it.  `colWidthFromSettings` is `_getColWidthFromSettings` (the
user-declared width override, absent when none is configured); `measure`
abstracts the sample selector plus ghost-table pass: the width reported for
a column when its samples over the given row range are registered and
flushed; `firstVisible`/`lastVisible` are the viewport query results used by
`onBeforeRender` (`-1` when the table is not rendered yet). -/
structure Host where
  countCols : Nat
  countRows : Nat
  colWidthFromSettings : Int → Option Int
  measure : Int → CRange → Int
  renderCall : Bool
  firstVisible : Int
  lastVisible : Int

/-- An argument of `calculateColumnsWidth`, which in the source may be
`undefined` (picking up the default), a plain number (normalized to a
one-element range) or a range object. -/
inductive JsArg where
  | undef
  | num (n : Int)
  | range (r : CRange)
deriving DecidableEq

/-- Resolve a `JsArg` against the default range of the corresponding
default parameter, normalizing a scalar `n` to `{from: n, to: n}`. -/
def resolveRange (dflt : CRange) : JsArg → CRange
  | JsArg.undef => dflt
  | JsArg.num n => ⟨n, n⟩
  | JsArg.range r => r

/-- Default column range `{from: 0, to: this.hot.countCols() - 1}`. -/
def defaultColRange (host : Host) : CRange :=
  ⟨0, (host.countCols : Int) - 1⟩

/-- Default row range `{from: 0, to: this.hot.countRows() - 1}`. -/
def defaultRowRange (host : Host) : CRange :=
  ⟨0, (host.countRows : Int) - 1⟩

/-- `AutoColumnSize.CALCULATION_STEP` (static getter), the batch step. -/
def CALCULATION_STEP : Int := 19

/-- `calculateColumnsWidth(colRange, rowRange, force)`.  For every column of
the (resolved) column range, the column is registered with the ghost table
exactly when `force || (this.widths[col] === void 0 &&
!this.hot._getColWidthFromSettings(col))`; afterwards, if anything was
registered, the ghost table is flushed once and writes the measured width of
every registered column into the cache.  The result is the new cache
together with the list of registered columns (the pending measurement
batch of this invocation). -/
def calculateColumnsWidth (host : Host) (widths : WidthCache)
    (colArg rowArg : JsArg) (force : Bool) : WidthCache × List Int :=
  let colRange := resolveRange (defaultColRange host) colArg
  let rowRange := resolveRange (defaultRowRange host) rowArg
  let registered := (rangeList colRange.rangeFrom colRange.rangeTo).filter
    (fun col => force || ((widths col).isNone && !jsTruthyW (host.colWidthFromSettings col)))
  (fun col => if registered.contains col then some (host.measure col rowRange) else widths col,
   registered)

/-- `getColumnWidth(col, defaultWidth)`: the cached width wins exactly when
it is present and strictly greater than `(defaultWidth || 0)`; otherwise the
(possibly absent) `defaultWidth` is returned unchanged. -/
def getColumnWidth (widths : WidthCache) (col : Int) (defaultWidth : Option Int) : Option Int :=
  match widths col with
  | some w => if jsOr defaultWidth 0 < w then some w else defaultWidth
  | none => defaultWidth

/-- One element of the `beforeChange` changes array
`[row, col, oldValue, newValue]`; the plugin reads only index 1 (the column). -/
structure CellChange where
  row : Int
  col : Int
deriving DecidableEq

/-- `onBeforeChange(changes)`: for every change, `this.widths[data[1]]` is
set to `undefined`. -/
def onBeforeChange (changes : List CellChange) (widths : WidthCache) : WidthCache :=
  changes.foldl (fun w data => fun col => if col = data.col then none else w col) widths

/-- `onBeforeColumnResize(col, size, isDblClick)`: on a double-click the
source calls `calculateColumnsWidth(void 0, col, true)` (first argument
`undefined`, second the plain number `col`) and then replaces `size` by
`getColumnWidth(col)` with the default width omitted.  Returns the resize
size together with the cache left behind. -/
def onBeforeColumnResize (host : Host) (widths : WidthCache) (col : Int)
    (size : Option Int) (isDblClick : Bool) : Option Int × WidthCache :=
  if isDblClick then
    let w2 := (calculateColumnsWidth host widths JsArg.undef (JsArg.num col) true).1
    (getColumnWidth w2 col none, w2)
  else
    (size, widths)

/-- `onBeforeRender()`: `calculateColumnsWidth({from: firstVisible, to:
lastVisible}, void 0, this.hot.renderCall)`. -/
def onBeforeRender (host : Host) (widths : WidthCache) : WidthCache × List Int :=
  calculateColumnsWidth host widths
    (JsArg.range ⟨host.firstVisible, host.lastVisible⟩) JsArg.undef host.renderCall

/-- Observable outcome of one `calculateAllColumnsWidth` run: the final
cache, the batches driven through `calculateColumnsWidth` in order, how many
animation frames were requested, how many times
`adjustElementsSize` (the layout-adjustment notification) fired, and how
many `cancelAnimationFrame` calls were made. -/
structure RunResult where
  widths : WidthCache
  batches : List CRange
  scheduled : Nat
  notified : Nat
  cancelCalls : Nat

/-- The `loop` closure of `calculateAllColumnsWidth`.  `alive k` tells
whether `this.hot` is still available when the `k`-th invocation of `loop`
runs (`k = 0` is the synchronous first call; each re-invocation is an
animation-frame callback).  If the host is gone the pending frame is
cancelled and the run aborts silently; otherwise the batch
`{from: current, to: min(current + CALCULATION_STEP, length)}` is measured
with `force = true`, the cursor advances by `CALCULATION_STEP + 1`, and the
loop either reschedules (while `current < length`) or finishes, firing the
layout-adjustment notification once and cancelling the (already fired)
timer when one was ever scheduled. -/
def calcAllLoop (host : Host) (alive : Nat → Bool) (rowArg : JsArg)
    (lengthI : Int) (k : Nat) (current : Int) (widths : WidthCache)
    (batchAcc : List CRange) (schedAcc : Nat) : RunResult :=
  if !alive k then
    ⟨widths, batchAcc, schedAcc, 0, 1⟩
  else
    let batch : CRange := ⟨current, min (current + CALCULATION_STEP) lengthI⟩
    let w2 := (calculateColumnsWidth host widths (JsArg.range batch) rowArg true).1
    if current + CALCULATION_STEP + 1 < lengthI then
      calcAllLoop host alive rowArg lengthI (k + 1) (current + CALCULATION_STEP + 1)
        w2 (batchAcc ++ [batch]) (schedAcc + 1)
    else
      ⟨w2, batchAcc ++ [batch], schedAcc, 1, if k = 0 then 0 else 1⟩
termination_by (lengthI - current).toNat
decreasing_by
  simp only [CALCULATION_STEP] at *
  omega

/-- `calculateAllColumnsWidth(rowRange)`: sets `current = 0` and
`length = this.hot.countRows() - 1` (sic: the row count), and starts the
loop only when `current < length`. -/
def calculateAllColumnsWidth (host : Host) (alive : Nat → Bool)
    (rowArg : JsArg) (widths : WidthCache) : RunResult :=
  let lengthI := (host.countRows : Int) - 1
  if 0 < lengthI then
    calcAllLoop host alive rowArg lengthI 0 0 widths [] 0
  else
    ⟨widths, [], 0, 0, 0⟩

/-- The sequence of batches the scheduler loop processes when first invoked
with cursor `current` at invocation index `k` (empty from the moment the
host is gone). -/
def batchSeq (alive : Nat → Bool) (lengthI : Int) (k : Nat) (current : Int) : List CRange :=
  if !alive k then
    []
  else
    let batch : CRange := ⟨current, min (current + CALCULATION_STEP) lengthI⟩
    if current + CALCULATION_STEP + 1 < lengthI then
      batch :: batchSeq alive lengthI (k + 1) (current + CALCULATION_STEP + 1)
    else
      [batch]
termination_by (lengthI - current).toNat
decreasing_by
  simp only [CALCULATION_STEP] at *
  omega

/-- Whether the scheduler loop, started at invocation index `k` with cursor
`current`, eventually finds the host gone (and so aborts) rather than
completing. -/
def abortsAt (alive : Nat → Bool) (lengthI : Int) (k : Nat) (current : Int) : Bool :=
  if !alive k then
    true
  else if current + CALCULATION_STEP + 1 < lengthI then
    abortsAt alive lengthI (k + 1) (current + CALCULATION_STEP + 1)
  else
    false
termination_by (lengthI - current).toNat
decreasing_by
  simp only [CALCULATION_STEP] at *
  omega

/-- Replay a list of batches through the calculation engine with
`force = true`, as the scheduler does. -/
def runBatches (host : Host) (rowArg : JsArg) (w : WidthCache) (bs : List CRange) : WidthCache :=
  bs.foldl (fun wc b => (calculateColumnsWidth host wc (JsArg.range b) rowArg true).1) w

/-! ### Concrete hosts and caches used as witnesses and failing inputs -/

/-- A cache holding width 120 for column 3 and nothing else. -/
def cache120 : WidthCache := fun c => if c = 3 then some 120 else none

/-- A one-column host whose ghost table measures every column at width 0. -/
def zeroHost : Host :=
  { countCols := 1, countRows := 2, colWidthFromSettings := fun _ => none,
    measure := fun _ _ => 0, renderCall := false, firstVisible := 0, lastVisible := 0 }

/-- A host with 50 columns but a single row. -/
def oneRowHost : Host :=
  { countCols := 50, countRows := 1, colWidthFromSettings := fun _ => none,
    measure := fun c _ => c + 5, renderCall := false, firstVisible := 0, lastVisible := 49 }

/-- A two-column, three-row host whose ghost table reports width `100 + col`
when measuring over the full row range `{from: 0, to: 2}` and width 7 over
any other row range. -/
def resizeHost : Host :=
  { countCols := 2, countRows := 3, colWidthFromSettings := fun _ => none,
    measure := fun c rr => if rr = ⟨0, 2⟩ then 100 + c else 7,
    renderCall := false, firstVisible := 0, lastVisible := 1 }

/-- A one-column host declaring a user width override of 100 for column 0. -/
def overrideHost : Host :=
  { countCols := 1, countRows := 2,
    colWidthFromSettings := fun c => if c = 0 then some 100 else none,
    measure := fun c _ => 40 + c, renderCall := false, firstVisible := 0, lastVisible := 0 }

/-- A ten-column host declaring a user width override of 50 for column 3. -/
def overrideHost3 : Host :=
  { countCols := 10, countRows := 3,
    colWidthFromSettings := fun c => if c = 3 then some 50 else none,
    measure := fun c _ => 20 + c, renderCall := false, firstVisible := 0, lastVisible := 9 }

/-- A ten-column host with no user width overrides. -/
def plainHost : Host :=
  { countCols := 10, countRows := 3, colWidthFromSettings := fun _ => none,
    measure := fun c _ => 20 + c, renderCall := false, firstVisible := 0, lastVisible := 9 }

/-- A five-column, four-row host whose viewport reports that the table is
not rendered yet (first and last visible column are both `-1`). -/
def notRenderedHost : Host :=
  { countCols := 5, countRows := 4, colWidthFromSettings := fun _ => none,
    measure := fun c rr => 10 + c + rr.rangeTo, renderCall := false,
    firstVisible := -1, lastVisible := -1 }

/-- A host with 50 columns but only 5 rows. -/
def host50x5 : Host :=
  { countCols := 50, countRows := 5, colWidthFromSettings := fun _ => none,
    measure := fun c _ => 10 + c, renderCall := false, firstVisible := 0, lastVisible := 49 }

/-- A square host with 45 columns and 45 rows and no overrides. -/
def host45 : Host :=
  { countCols := 45, countRows := 45, colWidthFromSettings := fun _ => none,
    measure := fun c _ => 10 + c, renderCall := false, firstVisible := 0, lastVisible := 44 }

/-! ### Helper lemmas about the calculation engine -/

/-- A column is registered for measurement exactly when it lies in the
resolved column range and the source's condition
`force || (widths[col] === void 0 && !_getColWidthFromSettings(col))` holds. -/
theorem mem_registered (host : Host) (widths : WidthCache) (colArg rowArg : JsArg)
    (force : Bool) (col : Int) :
    col ∈ (calculateColumnsWidth host widths colArg rowArg force).2 ↔
      (col ∈ rangeList (resolveRange (defaultColRange host) colArg).rangeFrom
          (resolveRange (defaultColRange host) colArg).rangeTo ∧
        (force = true ∨
          ((widths col).isNone = true ∧ jsTruthyW (host.colWidthFromSettings col) = false))) := by
  simp [calculateColumnsWidth, List.mem_filter, Bool.or_eq_true, Bool.and_eq_true,
    Bool.not_eq_true']

/-- The cache produced by `calculateColumnsWidth`: a registered column gets
the ghost-table width measured over the resolved row range, every other
column keeps its previous entry. -/
theorem calculateColumnsWidth_apply (host : Host) (widths : WidthCache)
    (colArg rowArg : JsArg) (force : Bool) (col : Int) :
    (calculateColumnsWidth host widths colArg rowArg force).1 col =
      if col ∈ (calculateColumnsWidth host widths colArg rowArg force).2 then
        some (host.measure col (resolveRange (defaultRowRange host) rowArg))
      else widths col := by
  simp [calculateColumnsWidth, List.elem_iff]

/-- Unfolding of the `beforeChange` hook: a column's entry becomes absent
exactly when some change touches it. -/
theorem onBeforeChange_apply (changes : List CellChange) (w0 : WidthCache) (c : Int) :
    onBeforeChange changes w0 c =
      if changes.any (fun chg => chg.col == c) then none else w0 c := by
  induction changes generalizing w0 with
  | nil => simp [onBeforeChange]
  | cons chg rest ih =>
      have hstep : onBeforeChange (chg :: rest) w0 =
          onBeforeChange rest (fun col => if col = chg.col then none else w0 col) := rfl
      rw [hstep, ih]
      simp only [List.any_cons]
      by_cases hc : chg.col = c
      · simp [hc]
      · have hbeq : (chg.col == c) = false := beq_eq_false_iff_ne.mpr hc
        simp only [hbeq, Bool.false_or]
        rw [if_neg (fun h : c = chg.col => hc h.symm)]

/-- The cache left behind by the scheduler loop is exactly the replay of the
batches it executed. -/
theorem calcAllLoop_widths (host : Host) (alive : Nat → Bool) (rowArg : JsArg) :
    ∀ (n : Nat) (lengthI : Int) (k : Nat) (current : Int) (w : WidthCache)
      (acc : List CRange) (s : Nat), (lengthI - current).toNat ≤ n →
      (calcAllLoop host alive rowArg lengthI k current w acc s).widths
        = runBatches host rowArg w (batchSeq alive lengthI k current) := by
  intro n
  induction n with
  | zero =>
      intro L k c w acc s hn
      rw [calcAllLoop, batchSeq]
      by_cases ha : alive k
      · have hlt : ¬ (c + CALCULATION_STEP + 1 < L) := by
          simp only [CALCULATION_STEP]
          omega
        simp [ha, hlt, runBatches]
      · simp [ha, runBatches]
  | succ n ih =>
      intro L k c w acc s hn
      rw [calcAllLoop, batchSeq]
      by_cases ha : alive k
      · by_cases hlt : c + CALCULATION_STEP + 1 < L
        · simp only [ha, hlt, Bool.not_true, Bool.false_eq_true, if_false, if_true]
          rw [ih]
          · simp [runBatches]
          · simp only [CALCULATION_STEP] at hlt ⊢
            omega
        · simp [ha, hlt, runBatches]
      · simp [ha, runBatches]

/-- The batches reported by the scheduler loop are the accumulator followed
by the batches it executes. -/
theorem calcAllLoop_batches (host : Host) (alive : Nat → Bool) (rowArg : JsArg) :
    ∀ (n : Nat) (lengthI : Int) (k : Nat) (current : Int) (w : WidthCache)
      (acc : List CRange) (s : Nat), (lengthI - current).toNat ≤ n →
      (calcAllLoop host alive rowArg lengthI k current w acc s).batches
        = acc ++ batchSeq alive lengthI k current := by
  intro n
  induction n with
  | zero =>
      intro L k c w acc s hn
      rw [calcAllLoop, batchSeq]
      by_cases ha : alive k
      · have hlt : ¬ (c + CALCULATION_STEP + 1 < L) := by
          simp only [CALCULATION_STEP]
          omega
        simp [ha, hlt]
      · simp [ha]
  | succ n ih =>
      intro L k c w acc s hn
      rw [calcAllLoop, batchSeq]
      by_cases ha : alive k
      · by_cases hlt : c + CALCULATION_STEP + 1 < L
        · simp only [ha, hlt, Bool.not_true, Bool.false_eq_true, if_false, if_true]
          rw [ih]
          · simp
          · simp only [CALCULATION_STEP] at hlt ⊢
            omega
        · simp [ha, hlt]
      · simp [ha]

/-- When the scheduler loop eventually finds the host gone, it fires no
layout-adjustment notification, performs exactly one frame cancellation, and
the frames it scheduled are one per executed batch. -/
theorem calcAllLoop_abort_info (host : Host) (alive : Nat → Bool) (rowArg : JsArg) :
    ∀ (n : Nat) (lengthI : Int) (k : Nat) (current : Int) (w : WidthCache)
      (acc : List CRange) (s : Nat), (lengthI - current).toNat ≤ n →
      abortsAt alive lengthI k current = true →
      (calcAllLoop host alive rowArg lengthI k current w acc s).notified = 0 ∧
      (calcAllLoop host alive rowArg lengthI k current w acc s).cancelCalls = 1 ∧
      (calcAllLoop host alive rowArg lengthI k current w acc s).scheduled
        = s + (batchSeq alive lengthI k current).length := by
  intro n
  induction n with
  | zero =>
      intro L k c w acc s hn hab
      rw [abortsAt] at hab
      rw [calcAllLoop, batchSeq]
      by_cases ha : alive k
      · have hlt : ¬ (c + CALCULATION_STEP + 1 < L) := by
          simp only [CALCULATION_STEP]
          omega
        simp [ha, hlt] at hab
      · simp [ha]
  | succ n ih =>
      intro L k c w acc s hn hab
      rw [abortsAt] at hab
      rw [calcAllLoop, batchSeq]
      by_cases ha : alive k
      · by_cases hlt : c + CALCULATION_STEP + 1 < L
        · simp only [ha, hlt, Bool.not_true, Bool.false_eq_true, if_false, if_true] at hab ⊢
          have hm : (L - (c + CALCULATION_STEP + 1)).toNat ≤ n := by
            simp only [CALCULATION_STEP] at hlt ⊢
            omega
          obtain ⟨h1, h2, h3⟩ := ih L (k + 1) (c + CALCULATION_STEP + 1) _ _ (s + 1) hm hab
          refine ⟨h1, h2, ?_⟩
          rw [h3]
          simp [List.length_cons]
          omega
        · simp [ha, hlt] at hab
      · simp [ha]

/-- Truncation: with a host that disappears from invocation `k0` on, the loop
executes exactly the first `k0 - k` batches of the always-alive run. -/
theorem batchSeq_take (k0 : Nat) :
    ∀ (n : Nat) (lengthI : Int) (k : Nat) (current : Int),
      (lengthI - current).toNat ≤ n → k ≤ k0 →
      batchSeq (fun j => decide (j < k0)) lengthI k current
        = (batchSeq (fun _ => true) lengthI k current).take (k0 - k) := by
  intro n
  induction n with
  | zero =>
      intro L k c hn hk
      have hlt : ¬ (c + CALCULATION_STEP + 1 < L) := by
        simp only [CALCULATION_STEP]
        omega
      rcases Nat.eq_or_lt_of_le hk with hke | hklt
      · rw [batchSeq]
        have hdead : ¬ (k < k0) := by omega
        simp [hdead, hke]
      · rw [batchSeq]
        conv_rhs => rw [batchSeq]
        simp [hklt, hlt]
        omega
  | succ n ih =>
      intro L k c hn hk
      rcases Nat.eq_or_lt_of_le hk with hke | hklt
      · rw [batchSeq]
        have hdead : ¬ (k < k0) := by omega
        simp [hdead, hke]
      · by_cases hlt : c + CALCULATION_STEP + 1 < L
        · rw [batchSeq]
          conv_rhs => rw [batchSeq]
          simp only [hklt, hlt]
          simp [hklt, hlt]
          rw [ih L (k + 1) (c + CALCULATION_STEP + 1) (by simp only [CALCULATION_STEP] at hlt ⊢; omega) (by omega)]
          have hsplit : k0 - k = (k0 - (k + 1)) + 1 := by omega
          rw [hsplit, List.take_succ_cons]
        · rw [batchSeq]
          conv_rhs => rw [batchSeq]
          simp [hklt, hlt]
          omega
  /- end batchSeq_take -/

/-- The always-alive batch sequence is never empty. -/
theorem batchSeq_true_ne_nil (lengthI : Int) (k : Nat) (current : Int) :
    batchSeq (fun _ => true) lengthI k current ≠ [] := by
  rw [batchSeq]
  by_cases hlt : current + CALCULATION_STEP + 1 < lengthI <;> simp [hlt]

/-- The truncated run aborts exactly when the always-alive run would have
executed more than `k0 - k` batches. -/
theorem abortsAt_eq (k0 : Nat) :
    ∀ (n : Nat) (lengthI : Int) (k : Nat) (current : Int),
      (lengthI - current).toNat ≤ n → k ≤ k0 →
      abortsAt (fun j => decide (j < k0)) lengthI k current
        = decide (k0 - k < (batchSeq (fun _ => true) lengthI k current).length) := by
  intro n
  induction n with
  | zero =>
      intro L k c hn hk
      have hlt : ¬ (c + CALCULATION_STEP + 1 < L) := by
        simp only [CALCULATION_STEP]
        omega
      rcases Nat.eq_or_lt_of_le hk with hke | hklt
      · rw [abortsAt]
        conv_rhs => rw [batchSeq]
        have hdead : ¬ (k < k0) := by omega
        simp [hdead, hlt, hke]
      · rw [abortsAt]
        conv_rhs => rw [batchSeq]
        simp [hklt, hlt]
        omega
  | succ n ih =>
      intro L k c hn hk
      rcases Nat.eq_or_lt_of_le hk with hke | hklt
      · rw [abortsAt]
        have hdead : ¬ (k < k0) := by omega
        have hpos : 0 < (batchSeq (fun _ => true) L k c).length :=
          List.length_pos.mpr (batchSeq_true_ne_nil L k c)
        have hgoal : k0 - k < (batchSeq (fun _ => true) L k c).length := by omega
        simp [hdead, hgoal]
      · by_cases hlt : c + CALCULATION_STEP + 1 < L
        · rw [abortsAt]
          conv_rhs => rw [batchSeq]
          simp only [hklt, hlt]
          simp [hklt, hlt]
          rw [ih L (k + 1) (c + CALCULATION_STEP + 1) (by simp only [CALCULATION_STEP] at hlt ⊢; omega) (by omega)]
          simp only [decide_eq_decide]
          omega
        · rw [abortsAt]
          conv_rhs => rw [batchSeq]
          simp [hklt, hlt]
          omega

/-! ### Claims -/

/-- Claim C1, behaviour of the code at a failing input: on a host with 50
columns but 5 rows (host available throughout), a full
`calculateAllColumnsWidth` run derives its last column index from
`countRows() - 1 = 4`, so the single batch covers columns 0–4 only; columns
5–49 are never measured, although the layout-adjustment notification still
fires once. -/
theorem calculateAllColumnsWidth_wrong_bound :
    host50x5.countCols = 50 ∧
    (calculateAllColumnsWidth host50x5 (fun _ => true) JsArg.undef (fun _ => none)).batches
      = [⟨0, 4⟩] ∧
    (calculateAllColumnsWidth host50x5 (fun _ => true) JsArg.undef (fun _ => none)).widths 4
      ≠ none ∧
    (calculateAllColumnsWidth host50x5 (fun _ => true) JsArg.undef (fun _ => none)).widths 5
      = none ∧
    (calculateAllColumnsWidth host50x5 (fun _ => true) JsArg.undef (fun _ => none)).widths 49
      = none ∧
    (calculateAllColumnsWidth host50x5 (fun _ => true) JsArg.undef (fun _ => none)).notified
      = 1 := by
  have hrun : calculateAllColumnsWidth host50x5 (fun _ => true) JsArg.undef (fun _ => none)
      = calcAllLoop host50x5 (fun _ => true) JsArg.undef 4 0 0 (fun _ => none) [] 0 := by
    unfold calculateAllColumnsWidth
    norm_num [host50x5]
  have hloop : calcAllLoop host50x5 (fun _ => true) JsArg.undef 4 0 0 (fun _ => none) [] 0
      = ⟨(calculateColumnsWidth host50x5 (fun _ => none) (JsArg.range ⟨0, 4⟩) JsArg.undef true).1,
         [⟨0, 4⟩], 0, 1, 0⟩ := by
    rw [calcAllLoop]
    norm_num [CALCULATION_STEP, min_def]
  rw [hrun, hloop]
  exact ⟨by decide, rfl, by decide, by decide, by decide, rfl⟩

/-- Claim C2, behaviour of the code at a failing input: on a double-click
resize of column 0 the source calls `calculateColumnsWidth(void 0, col, true)`,
so it force-recalculates every column (column 1's cache entry is written too)
over the single row whose index equals `col` (row range `{from: 0, to: 0}`,
yielding width 7) instead of column 0 over all rows (which would yield 100);
the returned resize target is therefore 7, not 100.  Without the double-click
flag the caller-supplied size is passed through. -/
theorem onBeforeColumnResize_swapped_args :
    (onBeforeColumnResize resizeHost (fun _ => none) 0 (some 55) true).1 = some 7 ∧
    (onBeforeColumnResize resizeHost (fun _ => none) 0 (some 55) true).2 1 = some 7 ∧
    resizeHost.measure 0 (defaultRowRange resizeHost) = 100 ∧
    (onBeforeColumnResize resizeHost (fun _ => none) 0 (some 55) false).1 = some 55 := by
  decide

/-- Claim C3, counterexample: with `force = false`, no cached width for
column 0 and a user width override of 100 declared for it, the engine
registers nothing and leaves the cache untouched — whereas the claim says
samples are requested whenever the column has no cached width, including
when an override exists. -/
theorem calculateColumnsWidth_override_skips :
    ((fun _ => none : WidthCache) 0).isNone = true ∧
    overrideHost.colWidthFromSettings 0 = some 100 ∧
    (calculateColumnsWidth overrideHost (fun _ => none) (JsArg.num 0) JsArg.undef false).2 = [] ∧
    (calculateColumnsWidth overrideHost (fun _ => none) (JsArg.num 0) JsArg.undef false).1 0
      = none := by
  decide

/-- Claim C3 as amended: during `calculateColumnsWidth`, a column of the
resolved column range is skipped exactly when `force` is false AND (the
column already has a cached width OR the host declares a truthy (non-zero)
user width override for it); otherwise it is registered for measurement. -/
theorem calculateColumnsWidth_skip_condition (host : Host) (widths : WidthCache)
    (colArg rowArg : JsArg) (force : Bool) (col : Int)
    (hmem : col ∈ rangeList (resolveRange (defaultColRange host) colArg).rangeFrom
      (resolveRange (defaultColRange host) colArg).rangeTo) :
    col ∉ (calculateColumnsWidth host widths colArg rowArg force).2 ↔
      (force = false ∧
        ((widths col).isSome = true ∨ jsTruthyW (host.colWidthFromSettings col) = true)) := by
  rw [mem_registered]
  constructor
  · intro h
    rcases Bool.eq_false_or_eq_true force with hf | hf
    · exact absurd ⟨hmem, Or.inl hf⟩ h
    · refine ⟨hf, ?_⟩
      by_contra hkeep
      push_neg at hkeep
      obtain ⟨h1, h2⟩ := hkeep
      have h1' : (widths col).isNone = true := by
        cases hw : widths col with
        | none => rfl
        | some v => rw [hw] at h1; exact absurd rfl h1
      have h2' : jsTruthyW (host.colWidthFromSettings col) = false := by
        cases hb : jsTruthyW (host.colWidthFromSettings col)
        · rfl
        · exact absurd hb h2
      exact h ⟨hmem, Or.inr ⟨h1', h2'⟩⟩
  · rintro ⟨hf, hkeep⟩ ⟨-, hcond⟩
    rcases hcond with hforce | ⟨hnone, hov⟩
    · rw [hf] at hforce; cases hforce
    · rcases hkeep with hsome | htr
      · rw [Option.isNone_iff_eq_none] at hnone
        rw [hnone] at hsome
        cases hsome
      · rw [htr] at hov; cases hov

/-- Witness for the amended C3 at a concrete input: column 0 of a
one-column host, empty cache, `force = false`, override present (both sides
of the equivalence hold: the column is skipped). -/
theorem calculateColumnsWidth_skip_condition_witness :
    0 ∉ (calculateColumnsWidth overrideHost (fun _ => none) (JsArg.num 0) JsArg.undef false).2 ↔
      (false = false ∧
        (((fun _ => none : WidthCache) 0).isSome = true ∨
          jsTruthyW (overrideHost.colWidthFromSettings 0) = true)) :=
  calculateColumnsWidth_skip_condition overrideHost (fun _ => none) (JsArg.num 0) JsArg.undef
    false 0 (by decide)

/-- Claim C4: `getColumnWidth(col, d)` never returns less than `d`; it
returns the cached width exactly when a cached width exists and is strictly
greater than `(d || 0)`, and returns `d` otherwise. -/
theorem getColumnWidth_monotone_tiebreak (widths : WidthCache) (col d : Int) :
    ∃ r, getColumnWidth widths col (some d) = some r ∧ d ≤ r ∧
      ((∃ w, widths col = some w ∧ jsOr (some d) 0 < w ∧ r = w) ∨
        (r = d ∧ ∀ w, widths col = some w → w ≤ jsOr (some d) 0)) := by
  have hd : d ≤ jsOr (some d) 0 := by
    rcases eq_or_ne d 0 with h0 | h0 <;> simp [jsOr, h0]
  cases hw : widths col with
  | none =>
      refine ⟨d, by simp [getColumnWidth, hw], le_refl d, Or.inr ⟨rfl, fun w hsome => ?_⟩⟩
      simp at hsome
  | some w =>
      by_cases h : jsOr (some d) 0 < w
      · exact ⟨w, by simp [getColumnWidth, hw, h], by omega, Or.inl ⟨w, rfl, h, rfl⟩⟩
      · refine ⟨d, by simp [getColumnWidth, hw, h], le_refl d,
          Or.inr ⟨rfl, fun w' hsome => ?_⟩⟩
        injection hsome with he
        omega

/-- Witness for C4, including the spec's worked example (column 3 cached at
120: `getColumnWidth(3, 80) = 120` and `getColumnWidth(3, 150) = 150`). -/
theorem getColumnWidth_monotone_tiebreak_witness :
    (∃ r, getColumnWidth cache120 3 (some 80) = some r ∧ (80 : Int) ≤ r ∧
      ((∃ w, cache120 3 = some w ∧ jsOr (some 80) 0 < w ∧ r = w) ∨
        (r = 80 ∧ ∀ w, cache120 3 = some w → w ≤ jsOr (some 80) 0))) ∧
    getColumnWidth cache120 3 (some 80) = some 120 ∧
    getColumnWidth cache120 3 (some 150) = some 150 :=
  ⟨getColumnWidth_monotone_tiebreak cache120 3 80, by decide, by decide⟩

/-- Claim C10: with `defaultWidth` omitted, `getColumnWidth(col)` returns the
cached width exactly when one exists and is strictly positive, and returns
`undefined` otherwise — including when a width of exactly 0 is cached; and
the double-click autosize path can indeed return `undefined` when the forced
measurement cached no positive width. -/
theorem getColumnWidth_no_default :
    (∀ (widths : WidthCache) (col w : Int),
        getColumnWidth widths col none = some w ↔ widths col = some w ∧ 0 < w) ∧
    (∀ (widths : WidthCache) (col : Int), widths col = some 0 →
        getColumnWidth widths col none = none) ∧
    (onBeforeColumnResize zeroHost (fun _ => none) 0 (some 50) true).1 = none := by
  refine ⟨?_, ?_, by decide⟩
  · intro widths col w
    cases hw : widths col with
    | none => simp [getColumnWidth, hw]
    | some v =>
        by_cases h : (0 : Int) < v
        · simp only [getColumnWidth, hw, jsOr, if_pos h]
          constructor
          · intro he; injection he with he; exact ⟨by rw [he], by omega⟩
          · intro ⟨he, _⟩; injection he with he; rw [he]
        · simp only [getColumnWidth, hw, jsOr, if_neg h]
          constructor
          · intro he; cases he
          · intro ⟨he, hpos⟩; injection he with he; omega
  · intro widths col h
    simp [getColumnWidth, h, jsOr]

/-- Witness for C10 at concrete caches: a cached 7 is returned, a cached 0
yields `undefined`. -/
theorem getColumnWidth_no_default_witness :
    getColumnWidth (fun c => if c = 2 then some 7 else none) 2 none = some 7 ∧
    getColumnWidth (fun c => if c = 2 then some 0 else none) 2 none = none :=
  ⟨(getColumnWidth_no_default.1 (fun c => if c = 2 then some 7 else none) 2 7).mpr
      ⟨by decide, by decide⟩,
    getColumnWidth_no_default.2.1 (fun c => if c = 2 then some 0 else none) 2 (by decide)⟩

/-- Claim C5, counterexample: edit `(2, 3)` on a host that declares a width
override of 50 for column 3.  The cache entry of column 3 does become
absent, but the subsequent `calculateColumnsWidth` call over columns 0–9
with `force = false` does not remeasure it (the override suppresses the
measurement), contradicting the claim's consequence. -/
theorem onBeforeChange_no_remeasure_under_override :
    onBeforeChange [⟨2, 3⟩] cache120 3 = none ∧
    3 ∉ (calculateColumnsWidth overrideHost3 (onBeforeChange [⟨2, 3⟩] cache120)
      (JsArg.range ⟨0, 9⟩) JsArg.undef false).2 := by
  decide

/-- Claim C5 as amended: after the `beforeChange` hook processes a list of
edits, the cache entry of every edited column is absent — so a subsequent
`calculateColumnsWidth` call whose column range includes that column
remeasures it even with `force = false`, provided the host declares no
truthy (non-zero) width override for it — while the entries of all columns
not appearing in any edit are unchanged. -/
theorem onBeforeChange_invalidates (changes : List CellChange) (w0 : WidthCache) :
    (∀ chg ∈ changes, onBeforeChange changes w0 chg.col = none) ∧
    (∀ c, (∀ chg ∈ changes, chg.col ≠ c) → onBeforeChange changes w0 c = w0 c) ∧
    (∀ (host : Host) (colArg rowArg : JsArg) (chg : CellChange), chg ∈ changes →
      jsTruthyW (host.colWidthFromSettings chg.col) = false →
      chg.col ∈ rangeList (resolveRange (defaultColRange host) colArg).rangeFrom
        (resolveRange (defaultColRange host) colArg).rangeTo →
      chg.col ∈ (calculateColumnsWidth host (onBeforeChange changes w0)
        colArg rowArg false).2) := by
  have habs : ∀ chg ∈ changes, onBeforeChange changes w0 chg.col = none := by
    intro chg hchg
    rw [onBeforeChange_apply]
    have : changes.any (fun x => x.col == chg.col) = true :=
      List.any_eq_true.mpr ⟨chg, hchg, by simp⟩
    rw [if_pos this]
  refine ⟨habs, ?_, ?_⟩
  · intro c hc
    rw [onBeforeChange_apply]
    have : ¬ changes.any (fun x => x.col == c) = true := by
      intro h
      obtain ⟨x, hx, hbe⟩ := List.any_eq_true.mp h
      exact hc x hx (by simpa using hbe)
    rw [if_neg this]
  · intro host colArg rowArg chg hchg hov hrange
    rw [mem_registered]
    refine ⟨hrange, Or.inr ⟨?_, hov⟩⟩
    rw [habs chg hchg]
    rfl

/-- Witness for the amended C5: edit `(2, 3)` against the cache holding 120
for column 3 on a host with no overrides; column 3's entry is gone, column 5
is untouched, and the next engine call over columns 0–9 with `force = false`
registers column 3 again. -/
theorem onBeforeChange_invalidates_witness :
    onBeforeChange [⟨2, 3⟩] cache120 3 = none ∧
    onBeforeChange [⟨2, 3⟩] cache120 5 = cache120 5 ∧
    3 ∈ (calculateColumnsWidth plainHost (onBeforeChange [⟨2, 3⟩] cache120)
      (JsArg.range ⟨0, 9⟩) JsArg.undef false).2 := by
  have h := onBeforeChange_invalidates [⟨2, 3⟩] cache120
  exact ⟨h.1 ⟨2, 3⟩ (by simp), h.2.1 5 (by simp),
    h.2.2 plainHost (JsArg.range ⟨0, 9⟩) JsArg.undef ⟨2, 3⟩ (by simp) (by decide) (by decide)⟩

/-- Claim C6: with unchanged host data and configuration, running
`calculateColumnsWidth` twice with identical arguments and `force = false`
leaves the cache of the second call identical to the cache of the first
call; the second call registers no column at all for measurement (in
particular none that the first call already cached). -/
theorem calculateColumnsWidth_idempotent (host : Host) (w0 : WidthCache)
    (colArg rowArg : JsArg) :
    (calculateColumnsWidth host
      (calculateColumnsWidth host w0 colArg rowArg false).1 colArg rowArg false).2 = [] ∧
    (∀ c, (calculateColumnsWidth host
        (calculateColumnsWidth host w0 colArg rowArg false).1 colArg rowArg false).1 c =
      (calculateColumnsWidth host w0 colArg rowArg false).1 c) := by
  have hr2 : (calculateColumnsWidth host
      (calculateColumnsWidth host w0 colArg rowArg false).1 colArg rowArg false).2 = [] := by
    rw [List.eq_nil_iff_forall_not_mem]
    intro col hcol
    rw [mem_registered] at hcol
    obtain ⟨hmem, hcond⟩ := hcol
    rcases hcond with hf | ⟨hnone, hov⟩
    · cases hf
    · rw [calculateColumnsWidth_apply] at hnone
      by_cases hin : col ∈ (calculateColumnsWidth host w0 colArg rowArg false).2
      · rw [if_pos hin] at hnone
        cases hnone
      · rw [if_neg hin] at hnone
        exact hin ((mem_registered host w0 colArg rowArg false col).mpr
          ⟨hmem, Or.inr ⟨hnone, hov⟩⟩)
  refine ⟨hr2, fun c => ?_⟩
  rw [calculateColumnsWidth_apply, hr2]
  simp

/-- Claim C8, behaviour of the code at a failing input (the surrounding
iteration helper `rangeEach` is modelled from the spec, inclusive on both
ends): when the viewport reports `-1` for both the first and the last
visible column, `onBeforeRender` passes `{from: -1, to: -1}` to the engine,
which registers column `-1` for measurement and writes a cache entry at
index `-1` — instead of treating the range as empty and leaving the cache
unchanged. -/
theorem onBeforeRender_notRendered_registers :
    notRenderedHost.firstVisible = -1 ∧ notRenderedHost.lastVisible = -1 ∧
    (onBeforeRender notRenderedHost (fun _ => none)).2 = [-1] ∧
    (onBeforeRender notRenderedHost (fun _ => none)).1 (-1) = some 12 := by
  decide

/-- Claim C9: when the host has at most one row, `calculateAllColumnsWidth`
measures nothing, mutates no cache entry, schedules no frame callback and
never fires the layout-adjustment notification, however many columns the
table has (the loop bound `length` is `countRows() - 1`). -/
theorem calculateAllColumnsWidth_singleRow (host : Host) (alive : Nat → Bool)
    (rowArg : JsArg) (widths : WidthCache) (h : host.countRows ≤ 1) :
    (calculateAllColumnsWidth host alive rowArg widths).batches = [] ∧
    (∀ col, (calculateAllColumnsWidth host alive rowArg widths).widths col = widths col) ∧
    (calculateAllColumnsWidth host alive rowArg widths).scheduled = 0 ∧
    (calculateAllColumnsWidth host alive rowArg widths).notified = 0 := by
  have hc : (host.countRows : Int) ≤ 1 := by exact_mod_cast h
  have hL : ¬ (0 < (host.countRows : Int) - 1) := by omega
  unfold calculateAllColumnsWidth
  simp [hL]

/-- Witness for C9: a one-row, 50-column host. -/
theorem calculateAllColumnsWidth_singleRow_witness :
    oneRowHost.countRows ≤ 1 ∧
    (calculateAllColumnsWidth oneRowHost (fun _ => true) JsArg.undef (fun _ => none)).batches = [] ∧
    (calculateAllColumnsWidth oneRowHost (fun _ => true) JsArg.undef (fun _ => none)).widths 7 = none ∧
    (calculateAllColumnsWidth oneRowHost (fun _ => true) JsArg.undef (fun _ => none)).scheduled = 0 ∧
    (calculateAllColumnsWidth oneRowHost (fun _ => true) JsArg.undef (fun _ => none)).notified = 0 := by
  have h := calculateAllColumnsWidth_singleRow oneRowHost (fun _ => true) JsArg.undef
    (fun _ => none) (by decide)
  exact ⟨by decide, h.1, h.2.1 7, h.2.2.1, h.2.2.2⟩

/-- Claim C7: if the host becomes unavailable between two scheduled batches
(alive for the first `k0 ≥ 1` loop invocations, gone from invocation `k0`
on), the run executes exactly the first `k0` batches of the always-alive
run and no further batch in any subsequent callback; the final cache is
exactly the replay of the executed batches, so entries written by earlier
batches remain unchanged (the embedding is total, so no exception escapes);
and — whenever the teardown actually cuts the run short — the
layout-adjustment notification never fires, the pending frame callback is
cancelled exactly once, and exactly `k0` frames were scheduled. -/
theorem calculateAllColumnsWidth_teardown (host : Host) (rowArg : JsArg)
    (w0 : WidthCache) (k0 : Nat) (hk : 1 ≤ k0) :
    (calculateAllColumnsWidth host (fun j => decide (j < k0)) rowArg w0).batches
      = ((calculateAllColumnsWidth host (fun _ => true) rowArg w0).batches).take k0 ∧
    (∀ col, (calculateAllColumnsWidth host (fun j => decide (j < k0)) rowArg w0).widths col
      = runBatches host rowArg w0
          ((calculateAllColumnsWidth host (fun j => decide (j < k0)) rowArg w0).batches) col) ∧
    ((calculateAllColumnsWidth host (fun j => decide (j < k0)) rowArg w0).batches.length
        < (calculateAllColumnsWidth host (fun _ => true) rowArg w0).batches.length →
      (calculateAllColumnsWidth host (fun j => decide (j < k0)) rowArg w0).notified = 0 ∧
      (calculateAllColumnsWidth host (fun j => decide (j < k0)) rowArg w0).cancelCalls = 1 ∧
      (calculateAllColumnsWidth host (fun j => decide (j < k0)) rowArg w0).scheduled = k0) := by
  unfold calculateAllColumnsWidth
  by_cases hL : 0 < (host.countRows : Int) - 1
  · simp only [if_pos hL]
    have hb1 := calcAllLoop_batches host (fun j => decide (j < k0)) rowArg
      (((host.countRows : Int) - 1) - 0).toNat ((host.countRows : Int) - 1) 0 0 w0 [] 0
      (le_refl _)
    have hb2 := calcAllLoop_batches host (fun _ => true) rowArg
      (((host.countRows : Int) - 1) - 0).toNat ((host.countRows : Int) - 1) 0 0 w0 [] 0
      (le_refl _)
    have hw1 := calcAllLoop_widths host (fun j => decide (j < k0)) rowArg
      (((host.countRows : Int) - 1) - 0).toNat ((host.countRows : Int) - 1) 0 0 w0 [] 0
      (le_refl _)
    have htake := batchSeq_take k0 (((host.countRows : Int) - 1) - 0).toNat
      ((host.countRows : Int) - 1) 0 0 (le_refl _) (Nat.zero_le _)
    refine ⟨?_, ?_, ?_⟩
    · rw [hb1, hb2, htake]
      simp
    · intro col
      rw [hw1, hb1]
      simp
    · intro hlen
      rw [hb1, hb2] at hlen
      simp only [List.nil_append] at hlen
      rw [htake] at hlen
      simp only [Nat.sub_zero] at hlen htake
      have hlt := List.length_take k0 (batchSeq (fun _ => true) ((host.countRows : Int) - 1) 0 0)
      have hk0len : k0 < (batchSeq (fun _ => true) ((host.countRows : Int) - 1) 0 0).length := by
        omega
      have habort : abortsAt (fun j => decide (j < k0)) ((host.countRows : Int) - 1) 0 0
          = true := by
        rw [abortsAt_eq k0 (((host.countRows : Int) - 1) - 0).toNat
          ((host.countRows : Int) - 1) 0 0 (le_refl _) (Nat.zero_le _)]
        simp only [decide_eq_true_eq, Nat.sub_zero]
        exact hk0len
      obtain ⟨h1, h2, h3⟩ := calcAllLoop_abort_info host (fun j => decide (j < k0)) rowArg
        (((host.countRows : Int) - 1) - 0).toNat ((host.countRows : Int) - 1) 0 0 w0 [] 0
        (le_refl _) habort
      refine ⟨h1, h2, ?_⟩
      rw [h3, htake]
      omega
  · simp only [if_neg hL]
    exact ⟨by simp, fun col => by simp [runBatches], by intro h; simp at h⟩

/-- Witness for C7: a 45-row, 45-column host where the host disappears after
the first scheduled batch (`k0 = 1`). -/
theorem calculateAllColumnsWidth_teardown_witness :
    ((calculateAllColumnsWidth host45 (fun j => decide (j < 1)) JsArg.undef
        (fun _ => none)).batches
      = ((calculateAllColumnsWidth host45 (fun _ => true) JsArg.undef
        (fun _ => none)).batches).take 1) ∧
    ((calculateAllColumnsWidth host45 (fun j => decide (j < 1)) JsArg.undef
        (fun _ => none)).widths 3
      = runBatches host45 JsArg.undef (fun _ => none)
          ((calculateAllColumnsWidth host45 (fun j => decide (j < 1)) JsArg.undef
            (fun _ => none)).batches) 3) ∧
    ((calculateAllColumnsWidth host45 (fun j => decide (j < 1)) JsArg.undef
          (fun _ => none)).batches.length
        < (calculateAllColumnsWidth host45 (fun _ => true) JsArg.undef
          (fun _ => none)).batches.length →
      (calculateAllColumnsWidth host45 (fun j => decide (j < 1)) JsArg.undef
        (fun _ => none)).notified = 0 ∧
      (calculateAllColumnsWidth host45 (fun j => decide (j < 1)) JsArg.undef
        (fun _ => none)).cancelCalls = 1 ∧
      (calculateAllColumnsWidth host45 (fun j => decide (j < 1)) JsArg.undef
        (fun _ => none)).scheduled = 1) := by
  have h := calculateAllColumnsWidth_teardown host45 JsArg.undef (fun _ => none) 1 (by decide)
  exact ⟨h.1, h.2.1 3, h.2.2⟩

end AutoColumnSize
